import Mathlib

/-!
Shallow embedding of the `rate_limiter` repository (token-bucket rate
limiter with an in-memory backend and a Redis backend), together with
theorems checking the natural-language specification against the code.

Conventions of the embedding:
* Python floats and Lua numbers are modelled as exact rationals (`ℚ`).
* The per-key bucket record `(tokens, timestamp)` is a pair `ℚ × ℚ`;
  an absent key is `Option.none`.
* A whole backend store maps keys (strings) to optional bucket records.
* Stateful methods become pure functions that take the relevant state and
  return the result together with the state they leave behind.
-/

namespace RateLimiter

/-- A stored bucket record: `(tokens, timestamp)`, as kept by both backends. -/
abbrev Bucket := ℚ × ℚ

/-- A backend's key-to-record mapping (the `self.buckets` dict / the Redis
keyspace restricted to this limiter's records). -/
abbrev Store := String → Option Bucket

namespace MemoryStorage

/-- Function `MemoryStorage.atomic_consume_token`, acting on the slot of one key.
Source (`storage_memory.py`):
* if the key is absent, initialize the slot to `(capacity, current_time)`;
* `elapsed = current_time - last_time`;
* `added_tokens = (elapsed / refill_time) * refill_rate`;
* `tokens = min(capacity, tokens + added_tokens)`;
* if `tokens >= 1`, store `(tokens - 1, current_time)` and return `True`,
  else store `(tokens, current_time)` and return `False`.
Returns the decision together with the record written back to the slot. -/
def atomic_consume_token (bucket : Option Bucket)
    (capacity refill_rate refill_time current_time : ℚ) : Bool × Bucket :=
  let st := bucket.getD (capacity, current_time)
  let tokens0 := st.1
  let last_time := st.2
  let elapsed := current_time - last_time
  let added_tokens := (elapsed / refill_time) * refill_rate
  let tokens := min capacity (tokens0 + added_tokens)
  if 1 ≤ tokens then (true, (tokens - 1, current_time))
  else (false, (tokens, current_time))

/-- The refill arithmetic of `atomic_consume_token` (lines 30-32 of
`storage_memory.py`): elapsed time is converted to added tokens and the sum
is capped at `capacity`. No clamping of negative elapsed time occurs. -/
def refill (tokens0 last_time capacity refill_rate refill_time now : ℚ) : ℚ :=
  min capacity (tokens0 + ((now - last_time) / refill_time) * refill_rate)

/-- Function `MemoryStorage.get_bucket_state`: `self.buckets.get(key)`. A read-only
dict lookup; the store is returned unchanged. -/
def get_bucket_state (buckets : Store) (key : String) : Option Bucket × Store :=
  (buckets key, buckets)

/-- Running `atomic_consume_token` for one key over a list of call times,
threading the slot's state; returns the list of decisions and the final
slot state. -/
def consumeSeq (capacity refill_rate refill_time : ℚ) :
    List ℚ → Option Bucket → List Bool × Option Bucket
  | [], bucket => ([], bucket)
  | now :: rest, bucket =>
    let r := atomic_consume_token bucket capacity refill_rate refill_time now
    let out := consumeSeq capacity refill_rate refill_time rest (some r.2)
    (r.1 :: out.1, out.2)

/-- Running `atomic_consume_token` over a list of `(key, now)` calls against
a whole store; returns the decision sequence and the final store. -/
def runConsume (capacity refill_rate refill_time : ℚ) :
    List (String × ℚ) → Store → List Bool × Store
  | [], store => ([], store)
  | (key, now) :: rest, store =>
    let r := atomic_consume_token (store key) capacity refill_rate refill_time now
    let out := runConsume capacity refill_rate refill_time rest
      (Function.update store key (some r.2))
    (r.1 :: out.1, out.2)

end MemoryStorage

namespace RedisStorage

/-- The Lua script of `RedisStorage._get_consume_token_lua_script`, acting on
the record stored under the (prefixed) key. Source (`storage_redis.py`):
* `GET key`; if `false` (absent), `tokens = capacity; last_time = current_time`,
  else decode the stored `{tokens, timestamp}` record;
* `elapsed = current_time - last_time`;
* `added_tokens = (elapsed / refill_time) * refill_rate`;
* `tokens = math.min(capacity, tokens + added_tokens)`;
* if `tokens >= 1`, `SETEX key expiration {tokens - 1, current_time}`, return `1`,
  else `SETEX key expiration {tokens, current_time}`, return `0`.
Returns the script's integer reply, the record written by `SETEX`, and the
expiration (TTL, seconds) passed to `SETEX`. -/
def consume_token_lua_script (bucket : Option Bucket)
    (capacity refill_rate refill_time current_time expiration : ℚ) :
    ℕ × Bucket × ℚ :=
  let st := match bucket with
    | none => (capacity, current_time)
    | some data => data
  let tokens0 := st.1
  let last_time := st.2
  let elapsed := current_time - last_time
  let added_tokens := (elapsed / refill_time) * refill_rate
  let tokens := min capacity (tokens0 + added_tokens)
  if 1 ≤ tokens then (1, (tokens - 1, current_time), expiration)
  else (0, (tokens, current_time), expiration)

/-- Function `RedisStorage.atomic_consume_token`: invokes the Lua script with
`args = [capacity, refill_rate, refill_time, current_time, 7200]` and returns
`bool(result)`. Also exposes the record written and the TTL used, for the
storage-level theorems. -/
def atomic_consume_token (bucket : Option Bucket)
    (capacity refill_rate refill_time current_time : ℚ) : Bool × Bucket × ℚ :=
  let result := consume_token_lua_script bucket capacity refill_rate refill_time
    current_time 7200
  (result.1 != 0, result.2)

/-- Function `RedisStorage.set_bucket_state`: performs `SETEX key 7200 data`.
Returns the record written and the TTL used. -/
def set_bucket_state (tokens timestamp : ℚ) : Bucket × ℚ :=
  ((tokens, timestamp), 7200)

/-- Running the Redis atomic consume over a list of `(key, now)` calls
against a whole store; returns the decision sequence and the final store. -/
def runConsume (capacity refill_rate refill_time : ℚ) :
    List (String × ℚ) → Store → List Bool × Store
  | [], store => ([], store)
  | (key, now) :: rest, store =>
    let r := atomic_consume_token (store key) capacity refill_rate refill_time now
    let out := runConsume capacity refill_rate refill_time rest
      (Function.update store key (some r.2.1))
    (r.1 :: out.1, out.2)

/-- What `self.redis.get(redis_key)` hands back to
`RedisStorage.get_bucket_state`, as the Python code distinguishes it:
`nil` (absent key), a `bytes` payload that decodes to a well-formed
`{tokens, timestamp}` record, a `bytes` payload that fails JSON decoding or
lacks a key, or a `str` payload (what a client constructed with
`decode_responses=True` returns) that would decode to a well-formed record. -/
inductive RedisReply where
  | null : RedisReply
  | bytesRecord (tokens timestamp : ℚ) : RedisReply
  | bytesMalformed : RedisReply
  | strRecord (tokens timestamp : ℚ) : RedisReply
deriving DecidableEq

/-- Whether the fetched value is a Python `bytes` object
(`isinstance(data, bytes)`). -/
def RedisReply.isBytes : RedisReply → Bool
  | .bytesRecord _ _ => true
  | .bytesMalformed => true
  | _ => false

/-- Function `RedisStorage.get_bucket_state`. Source control flow:
* `data is None` → return `None`;
* `isinstance(data, bytes)` → decode and parse; a decode/key error returns
  `None`; success returns `(tokens, timestamp)`;
* any other type (in particular `str`) skips the `if` body and falls off the
  end of the function, implicitly returning `None`. -/
def get_bucket_state (data : RedisReply) : Option Bucket :=
  match data with
  | .null => none
  | .bytesRecord tokens timestamp => some (tokens, timestamp)
  | .bytesMalformed => none
  | .strRecord _ _ => none

end RedisStorage

namespace TokenBucket

/-- The record returned by `TokenBucket.get_bucket_info`. -/
structure BucketInfo where
  tokens : ℚ
  capacity : ℚ
  refill_rate : ℚ
  refill_time : ℚ
  last_refill : Option ℚ
deriving DecidableEq

/-- Function `TokenBucket.get_bucket_info` over the in-memory backend: reads
`storage.get_bucket_state(key)`; if `None`, reports full capacity and no
last-refill time, otherwise reports the stored tokens and timestamp as-is.
Returns the info record together with the store it leaves behind. -/
def get_bucket_info (storage : Store) (capacity refill_rate refill_time : ℚ)
    (key : String) : BucketInfo × Store :=
  let r := MemoryStorage.get_bucket_state storage key
  match r.1 with
  | none =>
    (⟨capacity, capacity, refill_rate, refill_time, none⟩, r.2)
  | some (tokens, last_time) =>
    (⟨tokens, capacity, refill_rate, refill_time, some last_time⟩, r.2)

end TokenBucket

/-- Modelled from the spec (§4.2, read-only projection used by `Inspect`):
the token count obtained by applying refill steps 1-3 at time `now` without
consuming or persisting: `min(capacity, tokens + (elapsed / refillPeriod) *
refillRate)` with negative elapsed treated as zero. This definition follows
the spec's words; the code's `get_bucket_info` is compared against it. -/
def specProjectedTokens (tokens0 last_time capacity refill_rate refill_time now : ℚ) : ℚ :=
  min capacity (tokens0 + ((max (now - last_time) 0) / refill_time) * refill_rate)

/-- Value of a list of ASCII digit characters, or `none` when the list is
empty or contains a non-digit. Helper for `pyInt`. -/
def pyIntDigits : List Char → Option ℕ
  | [] => none
  | cs =>
    if cs.all Char.isDigit then
      some (cs.foldl (fun a c => 10 * a + (c.toNat - 48)) 0)
    else none

/-- Model of the `int(s)` conversion of Python on a string (as a character list): an optional sign
followed by one or more digits, giving the signed value; any other string
raises `ValueError` (here: `none`). Python additionally strips surrounding
whitespace and permits underscore group separators; those laxities are not
modelled and do not affect the inputs examined below. -/
def pyInt (s : List Char) : Option Int :=
  match s with
  | '+' :: cs => (pyIntDigits cs).map (fun n => (n : Int))
  | '-' :: cs => (pyIntDigits cs).map (fun n => -(n : Int))
  | cs => (pyIntDigits cs).map (fun n => (n : Int))

/-- Model of the `s.split` call at the separator: cut the character list at every `'/'`. The
result always has at least one part, and has exactly one part iff `'/'`
does not occur in `s`. -/
def splitOnSlash : List Char → List (List Char)
  | [] => [[]]
  | c :: cs =>
    let r := splitOnSlash cs
    if c = '/' then [] :: r
    else
      match r with
      | [] => [[c]]
      | p :: ps => (c :: p) :: ps

/-- The failure modes of `parse_rate_limit_string`. In Python all four are
`ValueError`s, distinguished by their message: the explicit
format-message raise, the `ValueError` out of `int(...)`, the unpacking
error when `split('/')` yields more than two parts, and the explicit
unsupported-period raise. -/
inductive RateParseError where
  | invalidFormat : RateParseError
  | intParseFailure : RateParseError
  | tooManyValues : RateParseError
  | unsupportedPeriod : RateParseError
deriving DecidableEq

/-- The `period_map` dict of `parse_rate_limit_string`, with keys as
character lists. -/
def period_map : List (List Char × ℕ) :=
  [("second".toList, 1), ("minute".toList, 60), ("hour".toList, 3600),
    ("day".toList, 86400)]

/-- Function `parse_rate_limit_string` (`token_bucket.py`):
* `'/' not in rate_string` → raise (format message); this is exactly the
  case where `split('/')` yields a single part;
* `requests, period = rate_string.split('/')` → unpacking fails when the
  split yields more than two parts (`split` never yields zero parts);
* `requests = int(requests)` → `ValueError` on a non-integer left side;
* `period not in period_map` → raise (unsupported-period message);
* returns `(capacity, refill_rate, refill_time) = (requests, requests,
  period_map[period])`. -/
def parse_rate_limit_string (rate_string : String) :
    Except RateParseError (Int × Int × ℕ) :=
  match splitOnSlash rate_string.toList with
  | [_] => .error .invalidFormat
  | [requests, period] =>
    match pyInt requests with
    | none => .error .intParseFailure
    | some n =>
      match period_map.lookup period with
      | none => .error .unsupportedPeriod
      | some refill_time => .ok (n, n, refill_time)
  | _ => .error .tooManyValues

/-- A store holding, under every key, a bucket with zero tokens last
observed at time `0`. Used as a concrete store in counterexamples. -/
def storeZero : Store := fun _ => some (0, 0)

/-- The empty store: no key has a record. -/
def storeEmpty : Store := fun _ => none

/-! ## Theorems -/

/-- Unfolding of the memory consume step on an existing record. -/
lemma MemoryStorage.atomic_consume_token_some
    (tokens0 last_time capacity refill_rate refill_time now : ℚ) :
    MemoryStorage.atomic_consume_token (some (tokens0, last_time))
        capacity refill_rate refill_time now =
      if 1 ≤ MemoryStorage.refill tokens0 last_time capacity refill_rate refill_time now then
        (true, (MemoryStorage.refill tokens0 last_time capacity refill_rate refill_time now - 1,
          now))
      else
        (false, (MemoryStorage.refill tokens0 last_time capacity refill_rate refill_time now,
          now)) := rfl

/-- Unfolding of the memory consume step on an absent key: the slot is
initialized to `(capacity, current_time)` first, so the elapsed time is `0`
and the refill leaves `min capacity capacity = capacity` tokens. -/
lemma MemoryStorage.atomic_consume_token_none
    (capacity refill_rate refill_time now : ℚ) :
    MemoryStorage.atomic_consume_token none capacity refill_rate refill_time now =
      if 1 ≤ min capacity (capacity + ((now - now) / refill_time) * refill_rate) then
        (true, (min capacity (capacity + ((now - now) / refill_time) * refill_rate) - 1, now))
      else
        (false, (min capacity (capacity + ((now - now) / refill_time) * refill_rate), now)) := rfl

/-- The Redis consume step computes exactly the memory consume step's
decision and record, together with the fixed TTL `7200` passed by
`RedisStorage.atomic_consume_token`. -/
lemma RedisStorage.atomic_consume_token_eq (bucket : Option Bucket)
    (capacity refill_rate refill_time now : ℚ) :
    RedisStorage.atomic_consume_token bucket capacity refill_rate refill_time now
      = ((MemoryStorage.atomic_consume_token bucket capacity refill_rate refill_time now).1,
         (MemoryStorage.atomic_consume_token bucket capacity refill_rate refill_time now).2,
         7200) := by
  cases bucket <;>
    · unfold RedisStorage.atomic_consume_token RedisStorage.consume_token_lua_script
        MemoryStorage.atomic_consume_token
      dsimp only [Option.getD]
      split <;> simp

/-- C1: with a positive capacity, refill rate and refill period, for every
stored record `(tokens0, last)` and call time `now ≥ last`, the memory
backend's atomic consume computes
`refilled = min(capacity, tokens0 + ((now - last) / refillPeriod) * refillRate)`,
answers `true` exactly when `refilled ≥ 1`, and writes back
`(refilled - 1, now)` in that case and `(refilled, now)` otherwise — the
stored timestamp advances to `now` on every call. -/
theorem consume_step_formula (capacity refill_rate refill_time tokens0 last now : ℚ)
    (hcap : 0 < capacity) (hrate : 0 < refill_rate) (hperiod : 0 < refill_time)
    (hnow : last ≤ now) :
    ((MemoryStorage.atomic_consume_token (some (tokens0, last)) capacity refill_rate
        refill_time now).1 = true ↔
      1 ≤ min capacity (tokens0 + ((now - last) / refill_time) * refill_rate))
    ∧ (MemoryStorage.atomic_consume_token (some (tokens0, last)) capacity refill_rate
        refill_time now).2 =
      (if 1 ≤ min capacity (tokens0 + ((now - last) / refill_time) * refill_rate) then
          min capacity (tokens0 + ((now - last) / refill_time) * refill_rate) - 1
        else min capacity (tokens0 + ((now - last) / refill_time) * refill_rate), now) := by
  rw [MemoryStorage.atomic_consume_token_some]
  unfold MemoryStorage.refill
  split <;> simp_all

/-- Witness for `consume_step_formula` at `capacity = 2`,
`refill_rate = refill_time = 1`, record `(1, 0)`, call time `0`. -/
theorem consume_step_formula_witness :
    ((MemoryStorage.atomic_consume_token (some ((1 : ℚ), 0)) 2 1 1 0).1 = true ↔
      1 ≤ min (2 : ℚ) (1 + ((0 - 0) / 1) * 1))
    ∧ (MemoryStorage.atomic_consume_token (some ((1 : ℚ), 0)) 2 1 1 0).2 =
      (if 1 ≤ min (2 : ℚ) (1 + ((0 - 0) / 1) * 1) then
          min (2 : ℚ) (1 + ((0 - 0) / 1) * 1) - 1
        else min (2 : ℚ) (1 + ((0 - 0) / 1) * 1), 0) :=
  consume_step_formula 2 1 1 1 0 0 (by norm_num) (by norm_num) (by norm_num) le_rfl

/-- C2: for every configuration, every sequence of `(key, now)` calls and
every starting store, the in-memory backend and the Redis Lua-script
backend produce the same decision sequence and the same final store. -/
theorem backend_equivalence (capacity refill_rate refill_time : ℚ)
    (calls : List (String × ℚ)) (store : Store) :
    MemoryStorage.runConsume capacity refill_rate refill_time calls store
      = RedisStorage.runConsume capacity refill_rate refill_time calls store := by
  induction calls generalizing store with
  | nil => rfl
  | cons c rest ih =>
    obtain ⟨key, now⟩ := c
    simp only [MemoryStorage.runConsume, RedisStorage.runConsume,
      RedisStorage.atomic_consume_token_eq, ih]

/-- C3 counterexample: the claim asserts `0 ≤ tokens` for the record written
by every consume call at every call time, but a call whose time lies before
the stored timestamp (clock regression) writes a negative token count:
from record `(5, 10)` with `capacity = 10`, `refill_rate = refill_time = 1`,
a call at time `0` stores `tokens = min(10, 5 + (-10)) = -5 < 0`. -/
theorem stored_tokens_negative_counterexample :
    (MemoryStorage.atomic_consume_token (some ((5 : ℚ), 10)) 10 1 1 0).2.1 < 0 := by
  norm_num [MemoryStorage.atomic_consume_token, min_def]

/-- C3 (amended): provided the call time is not before the stored
timestamp and any existing record already lies in range, the record written
by the atomic consume of either backend satisfies
`0 ≤ tokens ≤ capacity`; this covers lazy initialization (absent key). -/
theorem stored_tokens_in_range (capacity refill_rate refill_time now : ℚ)
    (bucket : Option Bucket)
    (hcap : 0 < capacity) (hrate : 0 < refill_rate) (hperiod : 0 < refill_time)
    (hb : ∀ q l, bucket = some (q, l) → 0 ≤ q ∧ q ≤ capacity ∧ l ≤ now) :
    (0 ≤ (MemoryStorage.atomic_consume_token bucket capacity refill_rate
          refill_time now).2.1
      ∧ (MemoryStorage.atomic_consume_token bucket capacity refill_rate
          refill_time now).2.1 ≤ capacity)
    ∧ (0 ≤ (RedisStorage.atomic_consume_token bucket capacity refill_rate
          refill_time now).2.1.1
      ∧ (RedisStorage.atomic_consume_token bucket capacity refill_rate
          refill_time now).2.1.1 ≤ capacity) := by
  have hmem :
      0 ≤ (MemoryStorage.atomic_consume_token bucket capacity refill_rate
          refill_time now).2.1
      ∧ (MemoryStorage.atomic_consume_token bucket capacity refill_rate
          refill_time now).2.1 ≤ capacity := by
    rcases bucket with _ | ⟨q, l⟩
    · rw [MemoryStorage.atomic_consume_token_none]
      have h0 : ((now - now) / refill_time) * refill_rate = 0 := by
        rw [sub_self, zero_div, zero_mul]
      rw [h0, add_zero, min_self]
      split <;> constructor <;> simp_all <;> linarith
    · obtain ⟨hq0, hqc, hl⟩ := hb q l rfl
      rw [MemoryStorage.atomic_consume_token_some]
      have hadd : 0 ≤ ((now - l) / refill_time) * refill_rate := by
        apply mul_nonneg (div_nonneg (by linarith) (le_of_lt hperiod)) (le_of_lt hrate)
      have hlo : 0 ≤ MemoryStorage.refill q l capacity refill_rate refill_time now :=
        le_min (le_of_lt hcap) (by linarith)
      have hhi : MemoryStorage.refill q l capacity refill_rate refill_time now ≤ capacity :=
        min_le_left _ _
      split <;> constructor <;> simp_all <;> linarith
  refine ⟨hmem, ?_⟩
  rw [RedisStorage.atomic_consume_token_eq]
  exact hmem

/-- Witness for `stored_tokens_in_range`: capacity `2`, rates `1`, record
`(1, 0)`, call at time `3`. -/
theorem stored_tokens_in_range_witness :
    (0 ≤ (MemoryStorage.atomic_consume_token (some ((1 : ℚ), 0)) 2 1 1 3).2.1
      ∧ (MemoryStorage.atomic_consume_token (some ((1 : ℚ), 0)) 2 1 1 3).2.1 ≤ 2)
    ∧ (0 ≤ (RedisStorage.atomic_consume_token (some ((1 : ℚ), 0)) 2 1 1 3).2.1.1
      ∧ (RedisStorage.atomic_consume_token (some ((1 : ℚ), 0)) 2 1 1 3).2.1.1 ≤ 2) :=
  stored_tokens_in_range 2 1 1 3 (some (1, 0)) (by norm_num) (by norm_num) (by norm_num)
    (by intro q l h; injection h with h'; injection h' with h1 h2;
        subst h1; subst h2; norm_num)

/-- C4 counterexample: the claim asserts that with `now < last` the refilled
count equals `min(capacity, tokens0)` (negative elapsed treated as zero),
but from record `(5, 10)` with `capacity = 10`, `refill_rate = refill_time
= 1` a call at time `0` stores `-5`, not `min 10 5 = 5`: the code applies
the negative elapsed time literally. -/
theorem clock_regression_counterexample :
    (MemoryStorage.atomic_consume_token (some ((5 : ℚ), 10)) 10 1 1 0).2.1 = -5
    ∧ ((-5 : ℚ) ≠ min 10 5) := by
  constructor
  · norm_num [MemoryStorage.atomic_consume_token, min_def]
  · norm_num

/-- C4 (amended): with `now < last` the consume step performs no clamping:
the refilled count is the literal
`min(capacity, tokens0 + ((now - last) / refillPeriod) * refillRate)` with a
negative added term, so it is at most `min(capacity, tokens0)` — a clock
regression can decrease the stored token count, never preserves it by
clamping. -/
theorem clock_regression_behavior (capacity refill_rate refill_time tokens0 last now : ℚ)
    (hrate : 0 < refill_rate) (hperiod : 0 < refill_time) (hnow : now < last) :
    ((MemoryStorage.atomic_consume_token (some (tokens0, last)) capacity refill_rate
        refill_time now).2.1 =
      (if 1 ≤ min capacity (tokens0 + ((now - last) / refill_time) * refill_rate) then
          min capacity (tokens0 + ((now - last) / refill_time) * refill_rate) - 1
        else min capacity (tokens0 + ((now - last) / refill_time) * refill_rate)))
    ∧ min capacity (tokens0 + ((now - last) / refill_time) * refill_rate)
        ≤ min capacity tokens0 := by
  constructor
  · rw [MemoryStorage.atomic_consume_token_some]
    unfold MemoryStorage.refill
    split <;> simp_all
  · have hneg : ((now - last) / refill_time) * refill_rate < 0 := by
      apply mul_neg_of_neg_of_pos (div_neg_of_neg_of_pos (by linarith) hperiod) hrate
    exact min_le_min le_rfl (by linarith)

/-- Witness for `clock_regression_behavior` at the counterexample input. -/
theorem clock_regression_behavior_witness :
    ((MemoryStorage.atomic_consume_token (some ((5 : ℚ), 10)) 10 1 1 0).2.1 =
      (if 1 ≤ min (10 : ℚ) (5 + ((0 - 10) / 1) * 1) then
          min (10 : ℚ) (5 + ((0 - 10) / 1) * 1) - 1
        else min (10 : ℚ) (5 + ((0 - 10) / 1) * 1)))
    ∧ min (10 : ℚ) (5 + ((0 - 10) / 1) * 1) ≤ min (10 : ℚ) 5 :=
  clock_regression_behavior 10 1 1 5 10 0 (by norm_num) (by norm_num) (by norm_num)

/-- A consume call at the timestamp already stored in the record adds no
tokens: the step is a pure decrement-or-deny on the stored count (capped at
`capacity`). -/
lemma atomic_consume_token_sameInstant (capacity refill_rate refill_time t q : ℚ)
    (hqc : q ≤ capacity) :
    MemoryStorage.atomic_consume_token (some (q, t)) capacity refill_rate refill_time t
      = if 1 ≤ q then (true, (q - 1, t)) else (false, (q, t)) := by
  have hr : MemoryStorage.refill q t capacity refill_rate refill_time t = q := by
    unfold MemoryStorage.refill
    rw [sub_self, zero_div, zero_mul, add_zero]
    exact min_eq_right hqc
  rw [MemoryStorage.atomic_consume_token_some, hr]

/-- The decision sequence of `consumeSeq` on a nonempty call list: head
decision, then the rest from the written-back record. -/
lemma consumeSeq_cons_fst (capacity refill_rate refill_time now : ℚ)
    (rest : List ℚ) (bucket : Option Bucket) :
    (MemoryStorage.consumeSeq capacity refill_rate refill_time (now :: rest) bucket).1
      = (MemoryStorage.atomic_consume_token bucket capacity refill_rate refill_time now).1
        :: (MemoryStorage.consumeSeq capacity refill_rate refill_time rest
            (some (MemoryStorage.atomic_consume_token bucket capacity refill_rate
              refill_time now).2)).1 := rfl

/-- From a record `(q, t)` with `n ≤ q < n + 1` and `q ≤ capacity`, a burst
of `n + 1` consume calls at the instant `t` yields `n` allowed decisions
followed by one denial. -/
lemma consumeSeq_sameInstant (capacity refill_rate refill_time t : ℚ) (n : ℕ) :
    ∀ q : ℚ, (n : ℚ) ≤ q → q < n + 1 → q ≤ capacity →
    (MemoryStorage.consumeSeq capacity refill_rate refill_time
        (List.replicate (n + 1) t) (some (q, t))).1
      = List.replicate n true ++ [false] := by
  induction n with
  | zero =>
    intro q h0 h1 hc
    have hstep := atomic_consume_token_sameInstant capacity refill_rate refill_time t q hc
    rw [if_neg (by push_cast at h1; linarith)] at hstep
    rw [List.replicate_succ, consumeSeq_cons_fst, hstep]
    rfl
  | succ m ih =>
    intro q h0 h1 hc
    have hstep := atomic_consume_token_sameInstant capacity refill_rate refill_time t q hc
    rw [if_pos (by push_cast at h0; linarith)] at hstep
    have hrest := ih (q - 1) (by push_cast at h0 ⊢; linarith)
      (by push_cast at h1 ⊢; linarith) (by linarith)
    rw [List.replicate_succ, consumeSeq_cons_fst, hstep]
    dsimp only
    rw [hrest, List.replicate_succ, List.cons_append]

/-- C5: for an integer capacity at least `1`, a positive refill rate and
period, and a key never seen before, a burst of `capacity + 1` consume
calls at the same instant yields exactly `capacity` allowed decisions
followed by one denial. -/
theorem burst_capacity_decisions (capacity : ℕ) (refill_rate refill_time t : ℚ)
    (hcap : 1 ≤ capacity) (hrate : 0 < refill_rate) (hperiod : 0 < refill_time) :
    (MemoryStorage.consumeSeq (capacity : ℚ) refill_rate refill_time
        (List.replicate (capacity + 1) t) none).1
      = List.replicate capacity true ++ [false] := by
  have hcast : (1 : ℚ) ≤ (capacity : ℚ) := by exact_mod_cast hcap
  have hfirst : MemoryStorage.atomic_consume_token none (capacity : ℚ) refill_rate
      refill_time t = (true, ((capacity : ℚ) - 1, t)) := by
    rw [MemoryStorage.atomic_consume_token_none]
    have h0 : ((t - t) / refill_time) * refill_rate = 0 := by
      rw [sub_self, zero_div, zero_mul]
    rw [h0, add_zero, min_self, if_pos hcast]
  have hrest := consumeSeq_sameInstant (capacity : ℚ) refill_rate refill_time t
    (capacity - 1) ((capacity : ℚ) - 1)
    (by rw [Nat.cast_sub hcap]; norm_num)
    (by rw [Nat.cast_sub hcap]; push_cast; linarith)
    (by linarith)
  rw [Nat.sub_add_cancel hcap] at hrest
  rw [List.replicate_succ, consumeSeq_cons_fst, hfirst]
  dsimp only
  rw [hrest]
  have hrep : List.replicate capacity true = true :: List.replicate (capacity - 1) true := by
    have h := List.replicate_succ true (capacity - 1)
    rw [Nat.sub_add_cancel hcap] at h
    exact h
  rw [hrep, List.cons_append]

/-- Witness for `burst_capacity_decisions` at `capacity = 2`,
`refill_rate = refill_time = 1`, instant `0`. -/
theorem burst_capacity_decisions_witness :
    (MemoryStorage.consumeSeq ((2 : ℕ) : ℚ) 1 1 (List.replicate (2 + 1) 0) none).1
      = List.replicate 2 true ++ [false] :=
  burst_capacity_decisions 2 1 1 0 (by norm_num) (by norm_num) (by norm_num)

/-- C6: waiting exactly `n * refillPeriod / refillRate` seconds makes
exactly `n` additional admissions available, bounded by capacity. First
conjunct: the refill arithmetic turns that gap into exactly `n` added
tokens, `refilled = min(capacity, tokens0 + n)`. Second conjunct: from a
just-denied record (`0 ≤ tokens0 < 1`) with integer capacity and
`n ≤ capacity`, a call after the gap followed by `n` more calls at that
same instant yields exactly `n` allowed decisions and then a denial.
Third conjunct: the worked example — `capacity = 2, refillRate = 1,
refillPeriod = 2`; calls at `t = 0` give allow, allow, deny, and a fourth
call at `t = 3` gives allow. -/
theorem refill_after_gap (capacity : ℕ) (refill_rate refill_time tokens0 last : ℚ) (n : ℕ)
    (hrate : 0 < refill_rate) (hperiod : 0 < refill_time) (hcap : 1 ≤ capacity)
    (hn : n ≤ capacity) (h0 : 0 ≤ tokens0) (h1 : tokens0 < 1) :
    MemoryStorage.refill tokens0 last (capacity : ℚ) refill_rate refill_time
        (last + n * refill_time / refill_rate)
      = min (capacity : ℚ) (tokens0 + n)
    ∧ (MemoryStorage.consumeSeq (capacity : ℚ) refill_rate refill_time
        ((last + n * refill_time / refill_rate)
          :: List.replicate n (last + n * refill_time / refill_rate))
        (some (tokens0, last))).1
      = List.replicate n true ++ [false]
    ∧ (MemoryStorage.consumeSeq 2 1 2 [0, 0, 0, 3] none).1 = [true, true, false, true] := by
  have hrate' : refill_rate ≠ 0 := ne_of_gt hrate
  have hperiod' : refill_time ≠ 0 := ne_of_gt hperiod
  have hgap : ((last + n * refill_time / refill_rate - last) / refill_time) * refill_rate
      = (n : ℚ) := by
    field_simp
    ring
  have hrefill : MemoryStorage.refill tokens0 last (capacity : ℚ) refill_rate refill_time
      (last + n * refill_time / refill_rate) = min (capacity : ℚ) (tokens0 + n) := by
    unfold MemoryStorage.refill
    rw [hgap]
  refine ⟨hrefill, ?_, ?_⟩
  · set T : ℚ := last + n * refill_time / refill_rate with hT
    have hcapcast : (1 : ℚ) ≤ (capacity : ℚ) := by exact_mod_cast hcap
    have hncast : (n : ℚ) ≤ (capacity : ℚ) := by exact_mod_cast hn
    rcases Nat.eq_zero_or_pos n with hn0 | hnpos
    · subst hn0
      have hmin : min (capacity : ℚ) (tokens0 + ((0 : ℕ) : ℚ)) = tokens0 := by
        push_cast
        rw [add_zero]
        exact min_eq_right (by linarith)
      have hstep : MemoryStorage.atomic_consume_token (some (tokens0, last))
          (capacity : ℚ) refill_rate refill_time T = (false, (tokens0, T)) := by
        rw [MemoryStorage.atomic_consume_token_some, hrefill, hmin,
          if_neg (by linarith)]
      rw [consumeSeq_cons_fst, hstep]
      rfl
    · have hone : (1 : ℚ) ≤ (n : ℚ) := by exact_mod_cast hnpos
      have hlo : (n : ℚ) ≤ min (capacity : ℚ) (tokens0 + n) :=
        le_min hncast (by linarith)
      have hhi : min (capacity : ℚ) (tokens0 + n) < (n : ℚ) + 1 :=
        lt_of_le_of_lt (min_le_right _ _) (by linarith)
      have hstep : MemoryStorage.atomic_consume_token (some (tokens0, last))
          (capacity : ℚ) refill_rate refill_time T
          = (true, (min (capacity : ℚ) (tokens0 + n) - 1, T)) := by
        rw [MemoryStorage.atomic_consume_token_some, hrefill, if_pos (by linarith)]
      have hrest := consumeSeq_sameInstant (capacity : ℚ) refill_rate refill_time T
        (n - 1) (min (capacity : ℚ) (tokens0 + n) - 1)
        (by rw [Nat.cast_sub hnpos]; push_cast; linarith)
        (by rw [Nat.cast_sub hnpos]; push_cast; linarith)
        (by have := min_le_left (capacity : ℚ) (tokens0 + n); linarith)
      rw [Nat.sub_add_cancel hnpos] at hrest
      rw [consumeSeq_cons_fst, hstep]
      dsimp only
      rw [hrest]
      have hrep : List.replicate n true = true :: List.replicate (n - 1) true := by
        have h := List.replicate_succ true (n - 1)
        rw [Nat.sub_add_cancel hnpos] at h
        exact h
      rw [hrep, List.cons_append]
  · norm_num [MemoryStorage.consumeSeq, MemoryStorage.atomic_consume_token, min_def]

/-- Witness for `refill_after_gap` at `capacity = 2`, `refill_rate = 1`,
`refill_time = 2`, record `(0, 0)`, gap for `n = 1`. -/
theorem refill_after_gap_witness :
    MemoryStorage.refill 0 0 ((2 : ℕ) : ℚ) 1 2 (0 + (1 : ℕ) * 2 / 1)
      = min ((2 : ℕ) : ℚ) (0 + (1 : ℕ))
    ∧ (MemoryStorage.consumeSeq ((2 : ℕ) : ℚ) 1 2
        ((0 + (1 : ℕ) * 2 / 1) :: List.replicate 1 (0 + (1 : ℕ) * 2 / 1))
        (some (0, 0))).1
      = List.replicate 1 true ++ [false]
    ∧ (MemoryStorage.consumeSeq 2 1 2 [0, 0, 0, 3] none).1 = [true, true, false, true] :=
  refill_after_gap 2 1 2 0 0 1 (by norm_num) (by norm_num) (by norm_num) (by norm_num)
    le_rfl (by norm_num)

/-- C7 counterexample: the claim restricts success to a positive integer on
the left of the separator, but `int("0")` succeeds in the source, so
`"0/minute"` parses to `capacity = refillRate = 0` instead of failing. -/
theorem parse_zero_counterexample :
    parse_rate_limit_string "0/minute" = .ok (0, 0, 60)
    ∧ ¬ (0 < (0 : Int)) :=
  ⟨rfl, by norm_num⟩

/-- C7 (amended): the parse function succeeds on exactly the strings
`"N/period"` where `N` is any integer literal (an optional sign and digits
— zero and negative values included) and `period` is one of `second`,
`minute`, `hour`, `day`, returning `capacity = refillRate = N` and
`refillPeriod = 1, 60, 3600, 86400` respectively; a string without the
separator fails with the explicit format error, a non-integer left side
fails with the `int()` conversion error, and an unrecognized period word
fails with the unsupported-period error. -/
theorem parse_characterization :
    (∀ s r, parse_rate_limit_string s = .ok r →
      ∃ a b n T, splitOnSlash s.toList = [a, b] ∧ pyInt a = some n
        ∧ period_map.lookup b = some T ∧ r = (n, n, T))
    ∧ (∀ s a b n T, splitOnSlash s.toList = [a, b] → pyInt a = some n →
        period_map.lookup b = some T →
        parse_rate_limit_string s = .ok (n, n, T))
    ∧ (∀ s a, splitOnSlash s.toList = [a] →
        parse_rate_limit_string s = .error .invalidFormat)
    ∧ (∀ s a b, splitOnSlash s.toList = [a, b] → pyInt a = none →
        parse_rate_limit_string s = .error .intParseFailure)
    ∧ (∀ s a b n, splitOnSlash s.toList = [a, b] → pyInt a = some n →
        period_map.lookup b = none →
        parse_rate_limit_string s = .error .unsupportedPeriod)
    ∧ period_map.lookup "second".toList = some 1
    ∧ period_map.lookup "minute".toList = some 60
    ∧ period_map.lookup "hour".toList = some 3600
    ∧ period_map.lookup "day".toList = some 86400
    ∧ parse_rate_limit_string "10/minute" = .ok (10, 10, 60)
    ∧ parse_rate_limit_string "abc" = .error .invalidFormat
    ∧ parse_rate_limit_string "5/fortnight" = .error .unsupportedPeriod := by
  refine ⟨?_, ?_, ?_, ?_, ?_, rfl, rfl, rfl, rfl, rfl, rfl, rfl⟩
  · intro s r h
    unfold parse_rate_limit_string at h
    rcases hsplit : splitOnSlash s.toList with _ | ⟨a, _ | ⟨b, _ | ⟨c, rest⟩⟩⟩ <;>
      rw [hsplit] at h <;> simp only [] at h
    · exact absurd h (by simp)
    · exact absurd h (by simp)
    · rcases hpy : pyInt a with _ | n <;> rw [hpy] at h <;> simp only [] at h
      · exact absurd h (by simp)
      · rcases hlk : period_map.lookup b with _ | T <;> rw [hlk] at h <;>
          simp only [] at h
        · exact absurd h (by simp)
        · refine ⟨a, b, n, T, rfl, hpy, hlk, ?_⟩
          injection h with h'
          exact h'.symm
    · exact absurd h (by simp)
  · intro s a b n T hsplit hpy hlk
    have hd : splitOnSlash s.data = [a, b] := hsplit
    simp [parse_rate_limit_string, hd, hpy, hlk]
  · intro s a hsplit
    have hd : splitOnSlash s.data = [a] := hsplit
    simp [parse_rate_limit_string, hd]
  · intro s a b hsplit hpy
    have hd : splitOnSlash s.data = [a, b] := hsplit
    simp [parse_rate_limit_string, hd, hpy]
  · intro s a b n hsplit hpy hlk
    have hd : splitOnSlash s.data = [a, b] := hsplit
    simp [parse_rate_limit_string, hd, hpy, hlk]

/-- Witness for `parse_characterization`: its success characterization
applied to the concrete string `"10/minute"`. -/
theorem parse_characterization_witness :
    parse_rate_limit_string "10/minute" = .ok (10, 10, 60) :=
  parse_characterization.2.1 "10/minute" "10".toList "minute".toList 10 60 rfl rfl rfl

/-- C8 counterexample: the claim says `get_bucket_info` reports the
refill-projected token count for the current time; but for a stored record
`(0, 0)` with `capacity = 2`, `refill_rate = refill_time = 1` at current
time `10`, the spec's read-only projection yields `2` while the code
reports the raw stored count `0`. -/
theorem inspect_no_projection_counterexample :
    (TokenBucket.get_bucket_info storeZero 2 1 1 "k").1.tokens = 0
    ∧ specProjectedTokens 0 0 2 1 1 10 = 2
    ∧ ((0 : ℚ) ≠ 2) := by
  refine ⟨rfl, ?_, by norm_num⟩
  norm_num [specProjectedTokens, max_def, min_def]

/-- C8 (amended): the function `get_bucket_info` never mutates the store, and reports
full capacity with no observation time for an unseen key, and the raw
stored token count and timestamp (no refill projection) for a seen key. -/
theorem inspect_reports_raw_state (storage : Store)
    (capacity refill_rate refill_time : ℚ) (key : String) :
    (TokenBucket.get_bucket_info storage capacity refill_rate refill_time key).2 = storage
    ∧ (storage key = none →
        (TokenBucket.get_bucket_info storage capacity refill_rate refill_time key).1
          = ⟨capacity, capacity, refill_rate, refill_time, none⟩)
    ∧ (∀ q l, storage key = some (q, l) →
        (TokenBucket.get_bucket_info storage capacity refill_rate refill_time key).1
          = ⟨q, capacity, refill_rate, refill_time, some l⟩) := by
  refine ⟨?_, ?_, ?_⟩
  · rcases h : storage key with _ | ⟨q, l⟩ <;>
      simp [TokenBucket.get_bucket_info, MemoryStorage.get_bucket_state, h]
  · intro h
    simp [TokenBucket.get_bucket_info, MemoryStorage.get_bucket_state, h]
  · intro q l h
    simp [TokenBucket.get_bucket_info, MemoryStorage.get_bucket_state, h]

/-- Witness for `inspect_reports_raw_state`: the seen-key case on
`storeZero` and the unseen-key case on `storeEmpty`. -/
theorem inspect_reports_raw_state_witness :
    ((TokenBucket.get_bucket_info storeZero 2 1 1 "k").1 = ⟨0, 2, 1, 1, some 0⟩)
    ∧ ((TokenBucket.get_bucket_info storeEmpty 2 1 1 "k").1 = ⟨2, 2, 1, 1, none⟩) :=
  ⟨(inspect_reports_raw_state storeZero 2 1 1 "k").2.2 0 0 rfl,
   (inspect_reports_raw_state storeEmpty 2 1 1 "k").2.1 rfl⟩

/-- C9 counterexample: the claim requires each written record's expiration
to be at least `capacity / refillRate * refillPeriod`; with `capacity = 1`,
`refillRate = 1`, `refillPeriod = 86400` (one request per day) the full
refill takes `86400` seconds but every write carries the fixed TTL `7200`. -/
theorem ttl_below_full_refill_counterexample :
    (RedisStorage.atomic_consume_token (some ((1 : ℚ), 0)) 1 1 86400 0).2.2 = 7200
    ∧ (RedisStorage.set_bucket_state 1 0).2 = 7200
    ∧ ((7200 : ℚ) < 1 / 1 * 86400) := by
  refine ⟨?_, rfl, by norm_num⟩
  rw [RedisStorage.atomic_consume_token_eq]

/-- C9 (amended): every record written by the Redis backend — by
`set_bucket_state` and by the consume script on both branches — carries the
fixed expiration `7200` seconds, which meets the full-refill lower bound
`capacity / refillRate * refillPeriod` exactly when that bound is at most
`7200`. -/
theorem ttl_fixed_7200 (bucket : Option Bucket)
    (capacity refill_rate refill_time now tokens ts : ℚ)
    (h : capacity / refill_rate * refill_time ≤ 7200) :
    (RedisStorage.set_bucket_state tokens ts).2 = 7200
    ∧ (RedisStorage.atomic_consume_token bucket capacity refill_rate
        refill_time now).2.2 = 7200
    ∧ capacity / refill_rate * refill_time
        ≤ (RedisStorage.atomic_consume_token bucket capacity refill_rate
            refill_time now).2.2 := by
  rw [RedisStorage.atomic_consume_token_eq]
  exact ⟨rfl, rfl, h⟩

/-- Witness for `ttl_fixed_7200` at the `"10/minute"` configuration
(`capacity = refillRate = 10`, `refillPeriod = 60`). -/
theorem ttl_fixed_7200_witness :
    (RedisStorage.set_bucket_state 1 0).2 = 7200
    ∧ (RedisStorage.atomic_consume_token none 10 10 60 0).2.2 = 7200
    ∧ (10 : ℚ) / 10 * 60 ≤ (RedisStorage.atomic_consume_token none 10 10 60 0).2.2 :=
  ttl_fixed_7200 none 10 10 60 0 1 0 (by norm_num)

/-- C10: the function `RedisStorage.get_bucket_state` returns `None` whenever the value
fetched from the store is not a `bytes` object; in particular every
well-formed record delivered as `str` (as a `decode_responses=True` client,
the one the factory constructs, returns it) is reported as absent. -/
theorem get_bucket_state_requires_bytes (v : RedisStorage.RedisReply)
    (h : v.isBytes = false) :
    RedisStorage.get_bucket_state v = none
    ∧ ∀ t ts : ℚ, RedisStorage.get_bucket_state (.strRecord t ts) = none := by
  refine ⟨?_, fun t ts => rfl⟩
  cases v <;> simp_all [RedisStorage.RedisReply.isBytes, RedisStorage.get_bucket_state]

/-- Witness for `get_bucket_state_requires_bytes` at the `str` record
`{tokens: 3, timestamp: 5}`. -/
theorem get_bucket_state_requires_bytes_witness :
    RedisStorage.get_bucket_state (.strRecord 3 5) = none
    ∧ ∀ t ts : ℚ, RedisStorage.get_bucket_state (.strRecord t ts) = none :=
  get_bucket_state_requires_bytes (.strRecord 3 5) rfl

end RateLimiter
